import Mathlib

/-!
Verification of the opencode-antigravity-auth translation gateway.

We shallowly embed the transform/response code of the repository
(src/plugin/transform/gemini.ts, src/plugin/request.ts, src/plugin/debug.ts)
over a JSON value model.

Embedding conventions
- JSON values are modelled by `JVal`; objects are insertion-ordered association
  lists with unique keys (every payload the gateway handles originates from
  `JSON.parse`, which yields duplicate-free, tree-shaped objects, so value
  semantics is faithful to JS heap mutation: no two fields of a parsed payload
  alias the same object).
- A missing property (JS `undefined`) is `Option.none`; `JVal.jnull` is JS
  `null`, which is distinct (e.g. for the `??` operator).
- Property access on a non-object yields `none` (in JS, access on a primitive
  yields `undefined`; on `null`/`undefined` it throws a TypeError that the
  gateway's try/catch turns into a no-transform passthrough, so no transformed
  body exists for such payloads and claims about produced bodies are unaffected).
- Property assignment on a non-object is the identity (in strict-mode JS it
  throws, again caught by the gateway; assignment of a named property on an
  array is invisible to `JSON.stringify`, which is the only observation the
  gateway makes of the result).
- JS string `.length` counts UTF-16 code units; Lean's `String.length` counts
  code points. They agree on all signature material in play (base64-like ASCII).
-/

inductive JVal where
  | jnull
  | jbool (b : Bool)
  | jnum (n : Int)
  | jstr (s : String)
  | jarr (elems : List JVal)
  | jobj (fields : List (String × JVal))

namespace JVal

/-- JS truthiness of a value (`NaN` does not arise in the payloads we model). -/
def truthy : JVal → Bool
  | jnull => false
  | jbool b => b
  | jnum n => n ≠ 0
  | jstr s => s ≠ ""
  | jarr _ => true
  | jobj _ => true

/-- JS `typeof v === "object"` (true for objects, arrays and `null`). -/
def typeofObject : JVal → Bool
  | jnull => true
  | jarr _ => true
  | jobj _ => true
  | _ => false

/-- Lookup of a key in an object's field list. -/
def getFields : List (String × JVal) → String → Option JVal
  | [], _ => none
  | (k', v) :: rest, k => if k' = k then some v else getFields rest k

/-- Property lookup: `v[k]`, `none` when absent or when `v` is not an object. -/
def jget : JVal → String → Option JVal
  | jobj fields, k => getFields fields k
  | _, _ => none

/-- Replace the first binding of `k` (preserving position) or append it. -/
def setFields (fields : List (String × JVal)) (k : String) (v : JVal) :
    List (String × JVal) :=
  match fields with
  | [] => [(k, v)]
  | (k', v') :: rest =>
    if k' = k then (k, v) :: rest else (k', v') :: setFields rest k v

/-- JS property assignment `v[k] = x` (identity on non-objects, see header). -/
def jset : JVal → String → JVal → JVal
  | jobj fields, k, v => jobj (setFields fields k v)
  | other, _, _ => other

/-- Remove the binding of `k` from an object's field list. -/
def delFields : List (String × JVal) → String → List (String × JVal)
  | [], _ => []
  | (k', v) :: rest, k =>
    if k' = k then delFields rest k else (k', v) :: delFields rest k

/-- JS `delete v[k]` (identity on non-objects). -/
def jdel : JVal → String → JVal
  | jobj fields, k => jobj (delFields fields k)
  | other, _ => other

/-- JS `k in v`. -/
def hasKey (v : JVal) (k : String) : Bool := (v.jget k).isSome

/-- Truthiness of an optional value (`undefined` is falsy). -/
def truthyOpt : Option JVal → Bool
  | none => false
  | some v => v.truthy

/-- The JS nullish-coalescing operator `a ?? b`. -/
def nullish : Option JVal → Option JVal → Option JVal
  | none, b => b
  | some jnull, b => b
  | some v, _ => some v

/-- Optional-chaining read `o?.k`. -/
def jgetOpt : Option JVal → String → Option JVal
  | none, _ => none
  | some v, k => v.jget k

/-- The top-level key list of an object (empty for non-objects). -/
def topKeys : JVal → List String
  | jobj fields => fields.map (·.1)
  | _ => []

theorem getFields_setFields_ne (fs : List (String × JVal)) (k k' : String)
    (v : JVal) (h : k' ≠ k) :
    getFields (setFields fs k v) k' = getFields fs k' := by
  induction fs with
  | nil =>
    have hkk : ¬ k = k' := fun hc => h hc.symm
    simp [setFields, getFields, hkk]
  | cons kv rest ih =>
    obtain ⟨k₀, v₀⟩ := kv
    by_cases hk : k₀ = k
    · subst hk
      have hne : ¬ k₀ = k' := fun hc => h hc.symm
      simp [setFields, getFields, hne]
    · simp only [setFields, if_neg hk, getFields]
      by_cases hk' : k₀ = k' <;> simp [hk', ih]

theorem getFields_setFields_self (fs : List (String × JVal)) (k : String)
    (v : JVal) : getFields (setFields fs k v) k = some v := by
  induction fs with
  | nil => simp [setFields, getFields]
  | cons kv rest ih =>
    obtain ⟨k₀, v₀⟩ := kv
    by_cases hk : k₀ = k
    · simp [setFields, hk, getFields]
    · simp [setFields, hk, getFields, ih]

theorem getFields_del_self (fs : List (String × JVal)) (k : String) :
    getFields (delFields fs k) k = none := by
  induction fs with
  | nil => rfl
  | cons kv rest ih =>
    obtain ⟨k₀, v₀⟩ := kv
    by_cases hk : k₀ = k
    · simpa [delFields, hk] using ih
    · simpa [delFields, hk, getFields] using ih

theorem getFields_del_ne (fs : List (String × JVal)) (k k' : String)
    (h : k' ≠ k) :
    getFields (delFields fs k) k' = getFields fs k' := by
  induction fs with
  | nil => rfl
  | cons kv rest ih =>
    obtain ⟨k₀, v₀⟩ := kv
    by_cases hk : k₀ = k
    · subst hk
      have hne : ¬ k₀ = k' := fun hc => h hc.symm
      simpa [delFields, getFields, hne] using ih
    · by_cases hk' : k₀ = k'
      · subst hk'
        simp [delFields, hk, getFields]
      · simpa [delFields, hk, getFields, hk'] using ih

theorem setFields_eq_self (fs : List (String × JVal)) (k : String) (v : JVal)
    (h : getFields fs k = some v) : setFields fs k v = fs := by
  induction fs with
  | nil => simp [getFields] at h
  | cons kv rest ih =>
    obtain ⟨k₀, v₀⟩ := kv
    by_cases hk : k₀ = k
    · subst hk
      have hv : v₀ = v := by simpa [getFields] using h
      simp [setFields, hv]
    · simp only [getFields, if_neg hk] at h
      simp [setFields, hk, ih h]

theorem jget_jset_ne (p : JVal) (k k' : String) (v : JVal) (h : k' ≠ k) :
    (p.jset k v).jget k' = p.jget k' := by
  cases p <;> simp [jset, jget, getFields_setFields_ne _ _ _ _ h]

theorem jget_jset_self_obj (fields : List (String × JVal)) (k : String)
    (v : JVal) : ((JVal.jobj fields).jset k v).jget k = some v := by
  simp [jset, jget, getFields_setFields_self]

theorem jget_jdel_self (p : JVal) (k : String) : (p.jdel k).jget k = none := by
  cases p <;> simp [jdel, jget, getFields_del_self]

theorem jget_jdel_ne (p : JVal) (k k' : String) (h : k' ≠ k) :
    (p.jdel k).jget k' = p.jget k' := by
  cases p <;> simp [jdel, jget, getFields_del_ne _ _ _ h]

/-- Re-assigning a key its current value is the identity (used for the in-place
part mutations of the source, which we express as re-assignments). -/
theorem jset_of_jget (p : JVal) (k : String) (v : JVal)
    (h : p.jget k = some v) : p.jset k v = p := by
  cases p <;> simp_all [jset, jget, setFields_eq_self]

end JVal

open JVal

/-- The transform context built once per outbound call (transform/types.ts via
request.ts lines 123-129). -/
structure TransformContext where
  model : String
  projectId : String
  streaming : Bool
  requestId : String
  sessionId : String

/-- Modelled from the spec: the Signature Continuity Cache (`src/plugin/cache.ts`
is not under src/). Spec §3: "an in-memory map from (session, normalized
thinking text) to a previously-seen authentic continuity signature"; entries
are "created/overwritten whenever a model-family transform observes a long,
non-sentinel signature" and "read (never removed)". We model the map as a
most-recent-first association list keyed by `(sessionId, text)`. -/
abbrev SigCache := List ((String × String) × String)

/-- Modelled from the spec: `getCachedSignature` (cache.ts, not under src/):
lookup of the signature stored for `(sessionId, text)`. -/
def getCachedSignature : SigCache → String → String → Option String
  | [], _, _ => none
  | (key, sig) :: rest, sessionId, text =>
    if key = (sessionId, text) then some sig else getCachedSignature rest sessionId text

/-- Modelled from the spec: `setCachedSignature` (cache.ts, not under src/):
key-level upsert of the signature for `(sessionId, text)`. -/
def setCachedSignature (cache : SigCache) (sessionId text sig : String) : SigCache :=
  ((sessionId, text), sig) :: cache

/-- The fixed bypass sentinel (signature.test.ts line 7; spec glossary
"Bypass sentinel"). -/
def THOUGHT_SIGNATURE_BYPASS : String := "skip_thought_signature_validator"

/-- gemini.ts line 24: `delete requestPayload.safetySettings`. -/
def safetyStep (p : JVal) : JVal := p.jdel "safetySettings"

/-- gemini.ts lines 31-36: inside a truthy object-typed `toolConfig`, replace a
falsy `functionCallingConfig` with `{}` and set `mode = "VALIDATED"` when it is
object-typed. -/
def toolConfigInner (tc : JVal) : JVal :=
  let tc := if !truthyOpt (tc.jget "functionCallingConfig")
            then tc.jset "functionCallingConfig" (jobj []) else tc
  match tc.jget "functionCallingConfig" with
  | some fcc =>
    if fcc.typeofObject then
      tc.jset "functionCallingConfig" (fcc.jset "mode" (jstr "VALIDATED"))
    else tc
  | none => tc

/-- gemini.ts lines 26-37: ensure `toolConfig.functionCallingConfig.mode` is
`"VALIDATED"`, creating intermediate objects when falsy. -/
def toolConfigStep (p : JVal) : JVal :=
  let p := if !truthyOpt (p.jget "toolConfig") then p.jset "toolConfig" (jobj []) else p
  match p.jget "toolConfig" with
  | some tc => if tc.typeofObject then p.jset "toolConfig" (toolConfigInner tc) else p
  | none => p

/-- gemini.ts lines 39-51: thinkingConfig normalization. `normTC` stands for
`normalizeThinkingConfig` (src/plugin/request-helpers.ts, which is not under
src/); we leave it abstract and quantify over it in theorems. -/
def thinkingStep (normTC : Option JVal → Option JVal) (p : JVal) : JVal :=
  let rawGC := p.jget "generationConfig"
  let normalized := normTC (jgetOpt rawGC "thinkingConfig")
  if truthyOpt normalized then
    match normalized with
    | some n =>
      match rawGC with
      | some gc =>
        if gc.truthy then p.jset "generationConfig" (gc.jset "thinkingConfig" n)
        else p.jset "generationConfig" (jobj [("thinkingConfig", n)])
      | none => p.jset "generationConfig" (jobj [("thinkingConfig", n)])
    | none => p
  else if truthyOpt (jgetOpt rawGC "thinkingConfig") then
    match rawGC with
    | some gc => p.jset "generationConfig" (gc.jdel "thinkingConfig")
    | none => p
  else p

/-- gemini.ts lines 53-56: rename `system_instruction` to `systemInstruction`. -/
def systemInstructionStep (p : JVal) : JVal :=
  match p.jget "system_instruction" with
  | some v => (p.jset "systemInstruction" v).jdel "system_instruction"
  | none => p

/-- JS `Object.keys(v).length` for the object-typed values that can reach the
emptiness check of gemini.ts line 76 (arrays enumerate their indices). -/
def objKeysLength : JVal → Nat
  | jobj fields => fields.length
  | jarr elems => elems.length
  | _ => 0

/-- gemini.ts lines 58-66: the resolved cached-content value (`cached_content`
?? `cachedContent` ?? the two legacy locations inside an object-typed truthy
`extra_body`). -/
def resolvedCachedContent (p : JVal) : Option JVal :=
  let fromExtra : Option JVal :=
    match p.jget "extra_body" with
    | some eb =>
      if eb.typeofObject && eb.truthy then
        nullish (eb.jget "cached_content") (eb.jget "cachedContent")
      else none
    | none => none
  nullish (p.jget "cached_content") (nullish (p.jget "cachedContent") fromExtra)

/-- gemini.ts lines 67-69: assign the canonical `cachedContent` when the
resolved value is truthy. -/
def cachedContentAssign (p : JVal) : JVal :=
  match resolvedCachedContent p with
  | some v => if v.truthy then p.jset "cachedContent" v else p
  | none => p

/-- gemini.ts lines 73-79: delete the legacy keys inside an object-typed truthy
`extra_body` and prune it entirely when emptied. -/
def extraBodyPrune (p : JVal) : JVal :=
  match p.jget "extra_body" with
  | some eb =>
    if eb.truthy && eb.typeofObject then
      let eb := (eb.jdel "cached_content").jdel "cachedContent"
      if objKeysLength eb = 0 then p.jdel "extra_body" else p.jset "extra_body" eb
    else p
  | none => p

/-- gemini.ts lines 58-79: cached-content resolution. Note that lines 71-72
delete the canonical `cachedContent` field right after line 68 assigns it, so
the net effect is removal of every cached-content location plus pruning of an
emptied `extra_body`. -/
def cachedContentStep (p : JVal) : JVal :=
  extraBodyPrune (((cachedContentAssign p).jdel "cached_content").jdel "cachedContent")

/-- gemini.ts lines 81-83: drop a top-level `model` field. -/
def modelStep (p : JVal) : JVal := if p.hasKey "model" then p.jdel "model" else p

/-- JS `part.thought === true`. -/
def isThoughtTrue (part : JVal) : Bool :=
  match part.jget "thought" with
  | some (jbool true) => true
  | _ => false

/-- gemini.ts line 94: `!signature || (typeof signature === "string" &&
signature.length < 50)`. -/
def signatureMissingOrShort : Option JVal → Bool
  | none => true
  | some v => !v.truthy || (match v with | jstr s => decide (s.length < 50) | _ => false)

/-- gemini.ts lines 90-104: for a `thought: true` part whose signature is
missing or short, restore a truthy cached signature for
`(sessionId, part.text)` when one exists. -/
def partRestoreStep (cache : SigCache) (sessionId : String) (part : JVal) : JVal :=
  if isThoughtTrue part then
    if signatureMissingOrShort (part.jget "thoughtSignature") then
      match part.jget "text" with
      | some (jstr t) =>
        match getCachedSignature cache sessionId t with
        | some c => if c ≠ "" then part.jset "thoughtSignature" (jstr c) else part
        | none => part
      | _ => part
    else part
  else part

/-- gemini.ts lines 87-108 (inner loop): apply `partRestoreStep` to every
element of an array-typed `parts` field. -/
def contentRestoreStep (cache : SigCache) (sessionId : String) (content : JVal) : JVal :=
  match content.jget "parts" with
  | some (jarr parts) =>
    content.jset "parts" (jarr (parts.map (partRestoreStep cache sessionId)))
  | _ => content

/-- gemini.ts lines 85-109: the contents loop. Note it iterates over every
content turn; it never reads a `role` field. -/
def contentsStep (cache : SigCache) (sessionId : String) (p : JVal) : JVal :=
  match p.jget "contents" with
  | some (jarr contents) =>
    p.jset "contents" (jarr (contents.map (contentRestoreStep cache sessionId)))
  | _ => p

/-- gemini.ts line 111: stamp the session id onto the payload. -/
def sessionStep (sessionId : String) (p : JVal) : JVal :=
  p.jset "sessionId" (jstr sessionId)

/-- gemini.ts line 163/193: `fd.name === "google_search"`. -/
def fdIsGoogleSearch (fd : JVal) : Bool :=
  match fd.jget "name" with
  | some (jstr s) => s = "google_search"
  | _ => false

/-- gemini.ts lines 156-167: is Google Search requested by this tool entry
(native `google_search`/`googleSearch` or a function declaration named
`google_search`)? -/
def toolRequestsSearch (tool : JVal) : Bool :=
  truthyOpt (tool.jget "google_search") || truthyOpt (tool.jget "googleSearch") ||
    (match tool.jget "functionDeclarations" with
     | some (jarr fds) => fds.any fdIsGoogleSearch
     | _ => false)

/-- gemini.ts lines 193-195: `splice` of the first `google_search` declaration. -/
def removeFirstGoogleSearch : List JVal → List JVal
  | [] => []
  | fd :: rest => if fdIsGoogleSearch fd then rest else fd :: removeFirstGoogleSearch rest

/-- gemini.ts lines 180-204: the standard (non-flash) per-tool normalization. -/
def normalizeToolStd (tool : JVal) : JVal :=
  let tool :=
    if truthyOpt (tool.jget "google_search") && !truthyOpt (tool.jget "googleSearch") then
      (tool.jset "googleSearch" ((tool.jget "google_search").getD jnull)).jdel "google_search"
    else tool
  match tool.jget "functionDeclarations" with
  | some (jarr fds) =>
    let tool :=
      if fds.any fdIsGoogleSearch then
        (tool.jset "functionDeclarations" (jarr (removeFirstGoogleSearch fds))).jset
          "googleSearch" (jobj [])
      else tool
    match tool.jget "functionDeclarations" with
    | some (jarr fds') => if fds'.length = 0 then tool.jdel "functionDeclarations" else tool
    | _ => tool
  | _ => tool

/-- gemini.ts line 172: the models for which search is exclusive. -/
def searchIsFlash (model : String) : Bool :=
  model = "gemini-2.5-flash" || model = "gemini-2.5-flash-lite"

/-- gemini.ts lines 151-211: `normalizeGoogleSearchTool` (the boolean it
returns is only logged, so we model the payload effect). -/
def normalizeGoogleSearchTool (model : String) (p : JVal) : JVal :=
  match p.jget "tools" with
  | some (jarr tools) =>
    if tools.any toolRequestsSearch then
      if searchIsFlash model then
        p.jset "tools" (jarr [jobj [("googleSearch", jobj [])]])
      else
        p.jset "tools" (jarr ((tools.map normalizeToolStd).filter
          (fun t => truthyOpt (t.jget "functionDeclarations") || truthyOpt (t.jget "googleSearch"))))
    else p
  | _ => p

/-- gemini.ts lines 118-124: the Antigravity envelope. -/
def wrapEnvelope (ctx : TransformContext) (p : JVal) : JVal :=
  jobj [("project", jstr ctx.projectId), ("model", jstr ctx.model),
        ("userAgent", jstr "antigravity"), ("requestId", jstr ctx.requestId),
        ("request", p)]

/-- The request-body pipeline of `transformGeminiRequest` (gemini.ts 22-116),
in source order, producing the inner `request` object. -/
def transformGeminiBody (normTC : Option JVal → Option JVal) (ctx : TransformContext)
    (cache : SigCache) (parsedBody : JVal) : JVal :=
  normalizeGoogleSearchTool ctx.model
    (sessionStep ctx.sessionId
      (contentsStep cache ctx.sessionId
        (modelStep
          (cachedContentStep
            (systemInstructionStep
              (thinkingStep normTC
                (toolConfigStep
                  (safetyStep parsedBody))))))))

/-- `transformGeminiRequest` (gemini.ts 18-133): the wrapped body whose
serialization it returns. -/
def transformGeminiRequest (normTC : Option JVal → Option JVal) (ctx : TransformContext)
    (cache : SigCache) (parsedBody : JVal) : JVal :=
  wrapEnvelope ctx (transformGeminiBody normTC ctx cache parsedBody)

/-- request.ts line 109: `typeof parsedBody.project === "string" && "request" in
parsedBody`. -/
def isWrappedBody (p : JVal) : Bool :=
  (match p.jget "project" with | some (jstr _) => true | _ => false) && p.hasKey "request"

/-- request.ts lines 111-121: the pre-enveloped passthrough path — spread the
parsed body, refresh `model`, `userAgent`, `requestId`, and stamp
`request.sessionId` when `request` is a truthy object. -/
def refreshWrappedBody (model requestId sessionId : String) (parsedBody : JVal) : JVal :=
  let wb := ((parsedBody.jset "model" (jstr model)).jset "userAgent"
    (jstr "antigravity")).jset "requestId" (jstr requestId)
  match wb.jget "request" with
  | some req =>
    if req.truthy && req.typeofObject then
      wb.jset "request" (req.jset "sessionId" (jstr sessionId))
    else wb
  | none => wb

/-- Modelled from the spec: the authenticity test of the Claude-proxy
transformer (spec §4.3): a signature is authentic iff it is present, not equal
to the bypass sentinel, and longer than the fixed 50-character threshold. -/
def isAuthenticSignature : Option JVal → Bool
  | some (jstr s) => s ≠ THOUGHT_SIGNATURE_BYPASS && decide (s.length > 50)
  | _ => false

/-- Modelled from the spec: the per-part thinking-block rule of
`transformClaudeRequest` (src/plugin/transform/claude.ts is not under src/),
faithful to spec §4.3 and to the behavior asserted by signature.test.ts
107-208: model-authored function-call parts pass through unchanged; a thinking
block with an authentic signature is kept unchanged; otherwise a signature is
recovered from the Signature Continuity Cache under `(sessionId, part text)`
and substituted; otherwise the whole part is dropped (`none`). -/
def claudePartStep (cache : SigCache) (sessionId : String) (part : JVal) : Option JVal :=
  if (part.jget "functionCall").isSome then some part
  else if isThoughtTrue part then
    if isAuthenticSignature (part.jget "thoughtSignature") then some part
    else
      match part.jget "text" with
      | some (jstr t) =>
        (getCachedSignature cache sessionId t).map
          (fun c => part.jset "thoughtSignature" (jstr c))
      | _ => none
  else some part

/-- Modelled from the spec: is this content turn model-authored? Only such
turns are inspected by the Claude-proxy transformer (spec §4.3: "parts
belonging to non-model-authored turns are never inspected or modified"). -/
def isModelRole (content : JVal) : Bool :=
  match content.jget "role" with
  | some (jstr s) => s = "model"
  | _ => false

/-- Modelled from the spec: rebuild the parts of a model-authored turn; leave
every other turn untouched (spec §4.3). -/
def claudeContentStep (cache : SigCache) (sessionId : String) (content : JVal) : JVal :=
  if isModelRole content then
    match content.jget "parts" with
    | some (jarr parts) =>
      content.jset "parts" (jarr (parts.filterMap (claudePartStep cache sessionId)))
    | _ => content
  else content

/-- Modelled from the spec (§4.2.8): the parts subject to the signature-bypass
protocol — thinking blocks, parts already carrying a continuity signature, and
function calls. -/
def isBypassEligiblePart (part : JVal) : Bool :=
  isThoughtTrue part || (part.jget "thoughtSignature").isSome ||
    (part.jget "functionCall").isSome

/-- Modelled from the spec: the signature-bypass step that spec §4.2.8 and the
gemini tests (signature.test.ts 21-105) prescribe for the Gemini-family
transformer — store a long (> 50) non-sentinel signature in the cache under
`(sessionId, text)` when the part has accompanying text, then unconditionally
set the part's signature to the bypass sentinel. (The gemini.ts under src/
does not implement this; see the C1 theorem.) -/
def geminiBypassPartSpec (cache : SigCache) (sessionId : String) (part : JVal) :
    JVal × SigCache :=
  if isBypassEligiblePart part then
    let cache' :=
      match part.jget "thoughtSignature", part.jget "text" with
      | some (jstr s), some (jstr t) =>
        if decide (s.length > 50) && s ≠ THOUGHT_SIGNATURE_BYPASS then
          setCachedSignature cache sessionId t s
        else cache
      | _, _ => cache
    (part.jset "thoughtSignature" (jstr THOUGHT_SIGNATURE_BYPASS), cache')
  else (part, cache)

/-- A response/request header map (the `Headers` objects of request.ts). -/
abbrev HeaderMap := List (String × String)

/-- `headers.set(name, value)`: replace an existing binding or append. -/
def headerSet : HeaderMap → String → String → HeaderMap
  | [], k, v => [(k, v)]
  | (k', v') :: rest, k, v =>
    if k' = k then (k, v) :: rest else (k', v') :: headerSet rest k v

/-- `headers.get(name)`. -/
def headerGet : HeaderMap → String → Option String
  | [], _ => none
  | (k', v) :: rest, k => if k' = k then some v else headerGet rest k

/-- The usage metadata shape extracted by the payload helpers
(request-helpers.ts, not under src/): four optional token counts. -/
structure UsageMetadata where
  promptTokenCount : Option Int
  candidatesTokenCount : Option Int
  cachedContentTokenCount : Option Int
  totalTokenCount : Option Int

/-- request.ts lines 233-244: project usage token counts onto response
headers. The entire block is guarded by
`usage?.cachedContentTokenCount !== undefined`. -/
def applyUsageHeaders (usage : Option UsageMetadata) (headers : HeaderMap) : HeaderMap :=
  match usage with
  | none => headers
  | some u =>
    match u.cachedContentTokenCount with
    | none => headers
    | some c =>
      let headers := headerSet headers "x-gemini-cached-content-token-count" (toString c)
      let headers :=
        match u.totalTokenCount with
        | some t => headerSet headers "x-gemini-total-token-count" (toString t)
        | none => headers
      let headers :=
        match u.promptTokenCount with
        | some t => headerSet headers "x-gemini-prompt-token-count" (toString t)
        | none => headers
      match u.candidatesTokenCount with
      | some t => headerSet headers "x-gemini-candidates-token-count" (toString t)
      | none => headers

/-- Longest leading run of decimal digits of a character list, and the rest. -/
def takeDigits : List Char → List Char × List Char
  | [] => ([], [])
  | c :: cs =>
    if c.isDigit then
      let (d, r) := takeDigits cs
      (c :: d, r)
    else ([], c :: cs)

/-- Numeric value of a digit list. -/
def digitsVal (ds : List Char) : Nat :=
  ds.foldl (fun acc c => 10 * acc + (c.toNat - 48)) 0

/-- JS `parseFloat` restricted to the `[0-9.]+` strings admitted by the regex
of request.ts line 205: the longest prefix matching `\d+(\.\d*)?` or `\.\d+`,
as an exact rational; `none` is `NaN`. (No sign, exponent, whitespace or
`Infinity` can occur in this character set.) -/
def jsParseFloat (s : String) : Option ℚ :=
  let (intPart, rest) := takeDigits s.toList
  match rest with
  | '.' :: rest' =>
    let (fracPart, _) := takeDigits rest'
    if intPart.isEmpty && fracPart.isEmpty then none
    else some ((digitsVal intPart : ℚ) + (digitsVal fracPart : ℚ) / (10 : ℚ) ^ fracPart.length)
  | _ => if intPart.isEmpty then none else some ((digitsVal intPart : ℚ))

/-- request.ts line 205: `retryDelay.match(/^([\d.]+)s$/)` — the captured
group, when the whole string is one or more digits/dots followed by `s`. -/
def matchRetryDelay (s : String) : Option String :=
  let cs := s.toList
  if cs.getLast? == some 's' && !cs.dropLast.isEmpty &&
      cs.dropLast.all (fun c => c.isDigit || c == '.') then
    some ⟨cs.dropLast⟩
  else none

/-- Fuel-structural count of halvings until the value drops below 2 (so the
kernel can evaluate it; fuel 1200 covers the full finite double range). -/
def log2UpFuel : Nat → ℚ → Nat
  | 0, _ => 0
  | fuel + 1, q => if q < 2 then 0 else 1 + log2UpFuel fuel (q / 2)

/-- Fuel-structural count of doublings until the value reaches 1. -/
def log2DownFuel : Nat → ℚ → Nat
  | 0, _ => 0
  | fuel + 1, q => if 1 ≤ q then 0 else 1 + log2DownFuel fuel (q * 2)

/-- Floor of the binary logarithm of a positive rational. -/
def log2Floor (q : ℚ) : Int :=
  if 1 ≤ q then (log2UpFuel 1200 q : Int) else -(log2DownFuel 1200 q : Int)

/-- Round a positive rational to the nearest IEEE-754 binary64 value
(round-half-to-even, 53-bit significand). Subnormal flushing and overflow to
infinity are not modelled; the C9 theorems stay inside the normal range. -/
def roundDouble (q : ℚ) : ℚ :=
  if q ≤ 0 then 0
  else
    let e : Int := log2Floor q
    let scaled : ℚ := q * (2 : ℚ) ^ (52 - e)
    let n : Int := ⌊scaled⌋
    let frac : ℚ := scaled - (n : ℚ)
    let m : Int :=
      if frac < 1/2 then n
      else if 1/2 < frac then n + 1
      else if n % 2 = 0 then n else n + 1
    (m : ℚ) * (2 : ℚ) ^ (e - 52)

/-- request.ts lines 204-213: the values of the two retry headers derived from
a `retryDelay` string. JS arithmetic is IEEE binary64: `parseFloat` rounds the
decimal to the nearest double, the `* 1000` product is rounded again, and
`Math.ceil`/`toString` are exact on the results. -/
def retryHeaderValues (retryDelay : String) : Option (String × String) :=
  match matchRetryDelay retryDelay with
  | none => none
  | some body =>
    match jsParseFloat body with
    | none => none
    | some q =>
      let d := roundDouble q
      if 0 < d then some (toString ⌈d⌉, toString ⌈roundDouble (d * 1000)⌉)
      else none

/-- request.ts lines 209-212: `headers.set('Retry-After', …)` and
`headers.set('retry-after-ms', …)` when a retry delay was derived. -/
def applyRetryHeaders (retryDelay : String) (headers : HeaderMap) : HeaderMap :=
  match retryHeaderValues retryDelay with
  | some (sec, ms) => headerSet (headerSet headers "Retry-After" sec) "retry-after-ms" ms
  | none => headers

/-- JS `key.toLowerCase()` for the ASCII header names Headers produce
(character-wise lowercasing). -/
def lowerName (s : String) : String := ⟨s.data.map Char.toLower⟩

/-- debug.ts lines 101-116: `maskHeaders` — replace the value of any header
whose name is case-insensitively `authorization` with `"[redacted]"`, keep
every other entry unchanged. -/
def maskHeaders (headers : HeaderMap) : HeaderMap :=
  headers.map (fun kv =>
    if lowerName kv.1 = "authorization" then (kv.1, "[redacted]") else kv)

/-- The caller's `toolConfig` object after the transform returns: gemini.ts
line 22 copies only the top level (`{ ...parsedBody }`), so a present
object-typed `toolConfig` is shared with the working copy and lines 29-37
mutate it in place; any other value is left alone (falsy values are replaced
on the clone only, and named properties set on arrays are invisible to JSON
serialization). -/
def originalToolConfigAfter (v : JVal) : JVal :=
  match v with
  | jobj _ => toolConfigInner v
  | _ => v

/-- The caller's `generationConfig` object after the transform returns
(gemini.ts lines 39-51 assign or delete `thinkingConfig` on the shared
object). -/
def originalGenerationConfigAfter (normTC : Option JVal → Option JVal) (v : JVal) : JVal :=
  let normalized := normTC (v.jget "thinkingConfig")
  if truthyOpt normalized then
    match normalized, v with
    | some n, jobj _ => v.jset "thinkingConfig" n
    | _, _ => v
  else if truthyOpt (v.jget "thinkingConfig") then
    match v with
    | jobj _ => v.jdel "thinkingConfig"
    | _ => v
  else v

/-- The caller's `extra_body` object after the transform returns (gemini.ts
lines 73-75 delete the two cached-content keys on the shared object; line 77
deletes the field from the clone only). -/
def originalExtraBodyAfter (v : JVal) : JVal :=
  match v with
  | jobj _ => (v.jdel "cached_content").jdel "cachedContent"
  | _ => v

/-- The caller's `contents` array after the transform returns (gemini.ts lines
85-109 mutate the shared part objects in place). -/
def originalContentsAfter (cache : SigCache) (sessionId : String) (v : JVal) : JVal :=
  match v with
  | jarr contents => jarr (contents.map (contentRestoreStep cache sessionId))
  | _ => v

/-- The caller's `tools` array after the transform returns: on the standard
search path gemini.ts lines 180-204 mutate the shared tool objects in place
(the final `filter` of line 206 builds a fresh array on the clone only); the
flash path replaces the clone's array without touching the shared one. -/
def originalToolsAfter (model : String) (v : JVal) : JVal :=
  match v with
  | jarr tools =>
    if tools.any toolRequestsSearch && !searchIsFlash model then
      jarr (tools.map normalizeToolStd)
    else v
  | _ => v

/-- What the caller's original payload object looks like after
`transformGeminiRequest` returns. The working copy is a shallow clone
(gemini.ts line 22), so top-level additions/deletions never reach the
original, but the nested objects listed above are shared and mutated in
place. Payloads come from `JSON.parse` (request.ts line 108), so the object
graph is a tree and each top-level field mutates independently. -/
def geminiOriginalAfter (normTC : Option JVal → Option JVal) (ctx : TransformContext)
    (cache : SigCache) (parsedBody : JVal) : JVal :=
  match parsedBody with
  | jobj fields =>
    jobj (fields.map (fun kv =>
      if kv.1 = "toolConfig" then (kv.1, originalToolConfigAfter kv.2)
      else if kv.1 = "generationConfig" then (kv.1, originalGenerationConfigAfter normTC kv.2)
      else if kv.1 = "extra_body" then (kv.1, originalExtraBodyAfter kv.2)
      else if kv.1 = "contents" then (kv.1, originalContentsAfter cache ctx.sessionId kv.2)
      else if kv.1 = "tools" then (kv.1, originalToolsAfter ctx.model kv.2)
      else kv))
  | other => other

theorem jget_safetyStep_ne (p : JVal) (k : String) (h : k ≠ "safetySettings") :
    (safetyStep p).jget k = p.jget k :=
  jget_jdel_ne p _ k h

theorem jget_toolConfigStep_ne (p : JVal) (k : String) (h : k ≠ "toolConfig") :
    (toolConfigStep p).jget k = p.jget k := by
  unfold toolConfigStep
  set p1 := if !truthyOpt (p.jget "toolConfig") then p.jset "toolConfig" (jobj []) else p
    with hp1
  have h1 : p1.jget k = p.jget k := by
    rw [hp1]
    split
    · exact jget_jset_ne _ _ _ _ h
    · rfl
  cases hm : p1.jget "toolConfig" with
  | some tc =>
    simp only [hm]
    split
    · rw [jget_jset_ne _ _ _ _ h]
      exact h1
    · exact h1
  | none =>
    simp only [hm]
    exact h1

theorem jget_thinkingStep_ne (normTC : Option JVal → Option JVal) (p : JVal)
    (k : String) (h : k ≠ "generationConfig") :
    (thinkingStep normTC p).jget k = p.jget k := by
  unfold thinkingStep
  dsimp only
  split
  · split
    · split
      · split <;> exact jget_jset_ne _ _ _ _ h
      · exact jget_jset_ne _ _ _ _ h
    · rfl
  · split
    · split
      · exact jget_jset_ne _ _ _ _ h
      · rfl
    · rfl

theorem jget_systemInstructionStep_ne (p : JVal) (k : String)
    (h1 : k ≠ "systemInstruction") (h2 : k ≠ "system_instruction") :
    (systemInstructionStep p).jget k = p.jget k := by
  unfold systemInstructionStep
  split
  · rw [jget_jdel_ne _ _ _ h2, jget_jset_ne _ _ _ _ h1]
  · rfl

theorem jget_cachedContentAssign_ne (p : JVal) (k : String)
    (h1 : k ≠ "cachedContent") :
    (cachedContentAssign p).jget k = p.jget k := by
  unfold cachedContentAssign
  split
  · split
    · exact jget_jset_ne _ _ _ _ h1
    · rfl
  · rfl

theorem jget_extraBodyPrune_ne (p : JVal) (k : String) (h3 : k ≠ "extra_body") :
    (extraBodyPrune p).jget k = p.jget k := by
  unfold extraBodyPrune
  split
  · dsimp only
    split
    · split
      · exact jget_jdel_ne _ _ _ h3
      · exact jget_jset_ne _ _ _ _ h3
    · rfl
  · rfl

theorem jget_cachedContentStep_ne (p : JVal) (k : String)
    (h1 : k ≠ "cachedContent") (h2 : k ≠ "cached_content") (h3 : k ≠ "extra_body") :
    (cachedContentStep p).jget k = p.jget k := by
  unfold cachedContentStep
  rw [jget_extraBodyPrune_ne _ _ h3, jget_jdel_ne _ _ _ h1, jget_jdel_ne _ _ _ h2,
    jget_cachedContentAssign_ne _ _ h1]

theorem jget_modelStep_ne (p : JVal) (k : String) (h : k ≠ "model") :
    (modelStep p).jget k = p.jget k := by
  unfold modelStep
  split
  · exact jget_jdel_ne _ _ _ h
  · rfl

theorem jget_contentsStep_ne (cache : SigCache) (sessionId : String) (p : JVal)
    (k : String) (h : k ≠ "contents") :
    (contentsStep cache sessionId p).jget k = p.jget k := by
  unfold contentsStep
  split
  · exact jget_jset_ne _ _ _ _ h
  · rfl

theorem jget_sessionStep_ne (sessionId : String) (p : JVal) (k : String)
    (h : k ≠ "sessionId") :
    (sessionStep sessionId p).jget k = p.jget k :=
  jget_jset_ne _ _ _ _ h

theorem jget_normalizeGoogleSearchTool_ne (model : String) (p : JVal) (k : String)
    (h : k ≠ "tools") :
    (normalizeGoogleSearchTool model p).jget k = p.jget k := by
  unfold normalizeGoogleSearchTool
  split
  · split
    · split <;> exact jget_jset_ne _ _ _ _ h
    · rfl
  · rfl

theorem jget_jset_self_of_some (p : JVal) (k k₀ : String) (v w : JVal)
    (h : p.jget k₀ = some w) : (p.jset k v).jget k = some v := by
  cases p <;> simp_all [jget, jset, getFields_setFields_self]

theorem jget_modelStep_self (p : JVal) : (modelStep p).jget "model" = none := by
  unfold modelStep
  split
  · exact jget_jdel_self _ _
  · next h =>
    cases hm : p.jget "model" with
    | none => rfl
    | some v => simp [hasKey, hm] at h

/-- Array indexing `xs[i]` through an optional value. -/
def jidx : Option JVal → Nat → Option JVal
  | some (jarr xs), i => xs.get? i
  | _, _ => none

/-- Modelled from the spec: `normalizeThinkingConfig`
(src/plugin/request-helpers.ts, not under src/) yields nothing when no
thinking configuration was requested (spec §4.2.3: "if normalization yields
nothing and none was requested, remove any stray thinking configuration").
The concrete payloads below carry no `thinkingConfig`, so this instantiation
is exact for them. -/
def noThinkingRequested : Option JVal → Option JVal := fun _ => none

/-- The transform context used by the concrete evaluations (the one built by
signature.test.ts `createContext`, with the model varied per scenario). -/
def testContext : TransformContext :=
  { model := "gemini-3-pro-high", projectId := "test-project", streaming := true,
    requestId := "test-request-id", sessionId := "test-session-id" }

/-- C4 (amended): every body built by the Gemini-family transformer is an
envelope with exactly the five fields `project`, `model`,
`userAgent = "antigravity"`, `requestId`, `request`, and its inner request
object never contains a `model` field. (The pre-enveloped passthrough path of
request.ts does not enjoy this: see the counterexample.) -/
theorem envelope_invariant_gemini_transformer (normTC : Option JVal → Option JVal)
    (ctx : TransformContext) (cache : SigCache) (body : JVal) :
    (transformGeminiRequest normTC ctx cache body).topKeys =
      ["project", "model", "userAgent", "requestId", "request"] ∧
    (transformGeminiRequest normTC ctx cache body).jget "userAgent" =
      some (jstr "antigravity") ∧
    (transformGeminiRequest normTC ctx cache body).jget "request" =
      some (transformGeminiBody normTC ctx cache body) ∧
    (transformGeminiBody normTC ctx cache body).hasKey "model" = false := by
  refine ⟨rfl, rfl, rfl, ?_⟩
  unfold transformGeminiBody
  rw [hasKey, jget_normalizeGoogleSearchTool_ne _ _ _ (by decide),
    jget_sessionStep_ne _ _ _ (by decide), jget_contentsStep_ne _ _ _ _ (by decide),
    jget_modelStep_self]
  rfl

/-- C4 (counterexample): a body produced by the gateway's pre-enveloped
passthrough path (request.ts lines 111-121) that keeps an extra top-level
field `junk` (so the body does not consist of exactly the five envelope
fields) and keeps a `model` field inside the inner `request`. -/
def c4PassthroughInput : JVal :=
  jobj [("project", jstr "proj"),
        ("request", jobj [("model", jstr "claude-sonnet-4-5")]),
        ("junk", jnum 1)]

/-- C4 counterexample theorem: the passthrough-refreshed body violates both
halves of the claimed invariant at `c4PassthroughInput`. -/
theorem envelope_invariant_counterexample :
    isWrappedBody c4PassthroughInput = true ∧
    (refreshWrappedBody "gemini-3-pro-high" "req-1" "sess-1" c4PassthroughInput).topKeys =
      ["project", "request", "junk", "model", "userAgent", "requestId"] ∧
    jgetOpt ((refreshWrappedBody "gemini-3-pro-high" "req-1" "sess-1"
        c4PassthroughInput).jget "request") "model" = some (jstr "claude-sonnet-4-5") := by
  exact ⟨rfl, rfl, rfl⟩

/-- The 344-character authentic signature used by signature.test.ts (line 9). -/
def VALID_CLAUDE_SIGNATURE : String :=
  "RXJRQ0NrZ0lDaEFDR0FJcVFKdmIzVzdUKzcyNE9nS29LTVdocXpIOEVuZFB3VzltelFLZENYT2xTMWs5dXF3RUdNcTMzTEJuaW1keTdBUjhGSUVyVG1IMnk2SVQvYjJaMTFnL3pPRVNES2NoYmVWZzk1LzBMaE50dGhvTUJWUFVJRmxNZU5qSzJzNERJakJXdFhJeVg0ZUJBZ1p4Zk9hYkNBWER6SHRvb2ZtMVQ2SjZodWdwbXFzSHllR3RjeERLd2JicWJJUzRvQStzTm9jcW1RR0MyTUFKUmNBSXRMc3drSFNNK09DcWhPNWZlNWxtNERIN0pJdnluamFBcEVrMUtsZithWjBwZWgyb1ZrZlUyQmVwZVByc3k3UWJVcWFmc3dBSVl6QkNlY1BISTA4bmpneUlBT"

/-- The payload of the test "applies bypass to thinking blocks in model turns"
(signature.test.ts lines 23-53): a model turn carrying a thinking block with a
long authentic signature. -/
def c1TestPayload : JVal :=
  jobj [("contents", jarr [
    jobj [("role", jstr "user"), ("parts", jarr [jobj [("text", jstr "Hello")]])],
    jobj [("role", jstr "model"), ("parts", jarr [
      jobj [("text", jstr "I am thinking..."), ("thought", jbool true),
            ("thoughtSignature", jstr VALID_CLAUDE_SIGNATURE)],
      jobj [("text", jstr "Here is my response")]])]])]

set_option maxRecDepth 40000

/-- The thinking-block part of the transformed test payload: field
`request.contents[1].parts[0]` of the wrapped body produced by the gemini.ts
under src/. -/
def c1OutputThoughtPart : Option JVal :=
  jidx (jgetOpt (jidx (jgetOpt ((transformGeminiRequest noThinkingRequested
    testContext [] c1TestPayload).jget "request") "contents") 1) "parts") 0

/-- C1 (code bug): evaluating `transformGeminiRequest` (the gemini.ts under
src/) at the payload of its own test suite: the model-authored thinking
block's signature comes out *unchanged* — it is not replaced by the bypass
sentinel, and no Signature Continuity Cache write occurs anywhere in the
function (the only cache operation gemini.ts performs is the read
`getCachedSignature` at line 97). This contradicts both spec §4.2.8 and
signature.test.ts line 52, which require the output signature to equal
`THOUGHT_SIGNATURE_BYPASS`. -/
theorem gemini_transform_no_bypass_at_test_payload :
    jgetOpt c1OutputThoughtPart "thoughtSignature" = some (jstr VALID_CLAUDE_SIGNATURE) ∧
    VALID_CLAUDE_SIGNATURE ≠ THOUGHT_SIGNATURE_BYPASS := by
  exact ⟨rfl, by decide⟩

/-- A user-authored turn containing a `thought: true` part with a short
signature whose text has a Signature Continuity Cache entry. -/
def c5UserTurn : JVal :=
  jobj [("role", jstr "user"),
        ("parts", jarr [jobj [("text", jstr "cached-text"), ("thought", jbool true),
                              ("thoughtSignature", jstr "short")]])]

/-- A payload whose only content turn is the user turn above. -/
def c5Payload : JVal := jobj [("contents", jarr [c5UserTurn])]

/-- A cache holding a long signature for `(test-session-id, cached-text)`. -/
def c5Cache : SigCache :=
  [(("test-session-id", "cached-text"),
    "RESTORED0123456789012345678901234567890123456789012345678901")]

/-- C5 (counterexample): the contents loop of gemini.ts (lines 85-109) never
reads the `role` field, so a *user*-authored turn is rewritten whenever it
contains a `thought: true` part with a missing-or-short signature whose text
hits the cache: at `c5Payload` and `c5Cache` the output user turn carries the
restored signature instead of the original `"short"`. -/
theorem gemini_user_turn_modified_counterexample :
    jgetOpt (jidx (c5Payload.jget "contents") 0) "role" = some (jstr "user") ∧
    jgetOpt (jidx (jgetOpt (jidx (c5Payload.jget "contents") 0) "parts") 0)
      "thoughtSignature" = some (jstr "short") ∧
    jgetOpt (jidx (jgetOpt (jidx (jgetOpt ((transformGeminiRequest
        noThinkingRequested testContext c5Cache c5Payload).jget "request")
        "contents") 0) "parts") 0) "thoughtSignature" =
      some (jstr "RESTORED0123456789012345678901234567890123456789012345678901") := by
  exact ⟨rfl, rfl, rfl⟩

/-- Does gemini.ts lines 91-104 fire for this part: a `thought: true` part with
missing-or-short signature, string text, and a truthy cache hit? -/
def partTriggersRestore (cache : SigCache) (sessionId : String) (part : JVal) : Bool :=
  isThoughtTrue part && signatureMissingOrShort (part.jget "thoughtSignature") &&
    (match part.jget "text" with
     | some (jstr t) =>
       (match getCachedSignature cache sessionId t with
        | some c => c ≠ ""
        | none => false)
     | _ => false)

/-- A content turn is untouched by the contents loop iff no part of it
triggers the cache-restore branch. -/
def contentUntouched (cache : SigCache) (sessionId : String) (content : JVal) : Bool :=
  match content.jget "parts" with
  | some (jarr parts) => parts.all (fun part => !partTriggersRestore cache sessionId part)
  | _ => true

theorem partRestoreStep_id (cache : SigCache) (sessionId : String) (part : JVal)
    (h : partTriggersRestore cache sessionId part = false) :
    partRestoreStep cache sessionId part = part := by
  by_cases h1 : isThoughtTrue part
  · by_cases h2 : signatureMissingOrShort (part.jget "thoughtSignature")
    · simp only [partTriggersRestore, h1, h2, Bool.true_and] at h
      simp only [partRestoreStep, h1, h2, if_true]
      cases ht : part.jget "text" with
      | some v =>
        cases v with
        | jstr t =>
          simp only [ht] at h ⊢
          cases hc : getCachedSignature cache sessionId t with
          | some c =>
            simp only [hc] at h ⊢
            simp_all
          | none => simp [hc]
        | jnull => simp [ht]
        | jbool b => simp [ht]
        | jnum n => simp [ht]
        | jarr es => simp [ht]
        | jobj fs => simp [ht]
      | none => simp [ht]
    · simp [partRestoreStep, h1, h2]
  · simp [partRestoreStep, h1]

theorem contentRestoreStep_id (cache : SigCache) (sessionId : String) (content : JVal)
    (h : contentUntouched cache sessionId content = true) :
    contentRestoreStep cache sessionId content = content := by
  have hall : ∀ (l : List JVal),
      l.all (fun part => !partTriggersRestore cache sessionId part) = true →
      l.map (partRestoreStep cache sessionId) = l := by
    intro l hl
    induction l with
    | nil => rfl
    | cons a t ih =>
      rw [List.all_cons, Bool.and_eq_true] at hl
      rw [List.map_cons, ih hl.2, partRestoreStep_id _ _ _ (by simpa using hl.1)]
  unfold contentRestoreStep
  cases hp : content.jget "parts" with
  | some v =>
    cases v with
    | jarr parts =>
      unfold contentUntouched at h
      rw [hp] at h
      dsimp only at h ⊢
      rw [hall parts h]
      exact jset_of_jget _ _ _ hp
    | jnull => rfl
    | jbool b => rfl
    | jnum n => rfl
    | jstr s => rfl
    | jobj fs => rfl
  | none => rfl

/-- C5 (amended): under either transformer the `contents` array of the output
request is the input array mapped turn-by-turn; the Gemini-family transform
(gemini.ts 85-109) does not inspect roles, but it leaves any turn — in
particular any non-model-authored turn — byte-identical provided none of its
parts is a `thought: true` part with a missing-or-short signature whose text
has a truthy cache entry for the session; the Claude-proxy transformer
(spec-modelled) never modifies a turn whose role is not `"model"`. -/
theorem transform_preserves_untriggered_turns (normTC : Option JVal → Option JVal)
    (ctx : TransformContext) (cache : SigCache) (body : JVal) (contents : List JVal)
    (h : body.jget "contents" = some (jarr contents)) :
    (transformGeminiBody normTC ctx cache body).jget "contents" =
      some (jarr (contents.map (contentRestoreStep cache ctx.sessionId))) ∧
    (∀ c ∈ contents, contentUntouched cache ctx.sessionId c = true →
      contentRestoreStep cache ctx.sessionId c = c) ∧
    (∀ c : JVal, c.jget "role" ≠ some (jstr "model") →
      claudeContentStep cache ctx.sessionId c = c) := by
  refine ⟨?_, fun c _ hc => contentRestoreStep_id _ _ _ hc, fun c hc => ?_⟩
  · have hpre : (modelStep (cachedContentStep (systemInstructionStep
        (thinkingStep normTC (toolConfigStep (safetyStep body)))))).jget "contents" =
        some (jarr contents) := by
      rw [jget_modelStep_ne _ _ (by decide),
        jget_cachedContentStep_ne _ _ (by decide) (by decide) (by decide),
        jget_systemInstructionStep_ne _ _ (by decide) (by decide),
        jget_thinkingStep_ne _ _ _ (by decide), jget_toolConfigStep_ne _ _ (by decide),
        jget_safetyStep_ne _ _ (by decide)]
      exact h
    unfold transformGeminiBody
    rw [jget_normalizeGoogleSearchTool_ne _ _ _ (by decide),
      jget_sessionStep_ne _ _ _ (by decide)]
    unfold contentsStep
    rw [hpre]
    exact jget_jset_self_of_some _ _ _ _ _ hpre
  · have hrole : isModelRole c = false := by
      unfold isModelRole
      cases hr : c.jget "role" with
      | none => rfl
      | some v =>
        cases v with
        | jstr s =>
          by_cases hs : s = "model"
          · exact absurd (hs ▸ hr) hc
          · simp [hs]
        | jnull => rfl
        | jbool b => rfl
        | jnum n => rfl
        | jarr es => rfl
        | jobj fs => rfl
    simp [claudeContentStep, hrole]

/-- C5 witness: the theorem applied at `c5Payload` with an *empty* cache — the
user turn has no cache hit, so it comes through byte-identical, and a
non-model turn given to the Claude-proxy transformer is untouched. -/
theorem transform_preserves_untriggered_turns_witness :
    (transformGeminiBody noThinkingRequested testContext [] c5Payload).jget "contents" =
      some (jarr ([c5UserTurn].map (contentRestoreStep [] testContext.sessionId))) ∧
    contentRestoreStep [] testContext.sessionId c5UserTurn = c5UserTurn ∧
    claudeContentStep [] testContext.sessionId c5UserTurn = c5UserTurn := by
  have h := transform_preserves_untriggered_turns noThinkingRequested testContext []
    c5Payload [c5UserTurn] rfl
  refine ⟨h.1, h.2.1 c5UserTurn (List.mem_singleton.mpr rfl) rfl,
    h.2.2 c5UserTurn ?_⟩
  intro hco
  have hbad : (some (jstr "user") : Option JVal) = some (jstr "model") := hco
  simp at hbad

theorem getFields_map_preserve (F : String × JVal → String × JVal)
    (fs : List (String × JVal)) (k : String)
    (hF1 : ∀ kv, (F kv).1 = kv.1) (hFk : ∀ kv, kv.1 = k → F kv = kv) :
    getFields (fs.map F) k = getFields fs k := by
  induction fs with
  | nil => rfl
  | cons kv rest ih =>
    by_cases hk : kv.1 = k
    · rw [List.map_cons, hFk kv hk]
      obtain ⟨a, b⟩ := kv
      simp only at hk
      simp [getFields, hk]
    · rw [List.map_cons]
      have h1 : (F kv).1 ≠ k := by rw [hF1]; exact hk
      rcases hFv : F kv with ⟨a, b⟩
      rw [hFv] at h1
      obtain ⟨a₀, b₀⟩ := kv
      simp only at hk h1
      simp [getFields, h1, hk, ih]

theorem map_fst_map (F : String × JVal → String × JVal)
    (hF1 : ∀ kv, (F kv).1 = kv.1) (fs : List (String × JVal)) :
    (fs.map F).map (fun kv => kv.1) = fs.map (fun kv => kv.1) := by
  induction fs with
  | nil => rfl
  | cons kv rest ih => simp [hF1, ih]

/-- C6 (amended): the transformer works on a shallow clone of the original
payload (gemini.ts line 22), so the original's top-level key list is unchanged
and every top-level field other than the five shared nested ones
(`toolConfig`, `generationConfig`, `extra_body`, `contents`, `tools`) is
byte-identical after the transform returns; those five, however, are shared
with the clone and are mutated in place (see the counterexample). -/
theorem original_payload_after_transform (normTC : Option JVal → Option JVal)
    (ctx : TransformContext) (cache : SigCache) (P : JVal) :
    (geminiOriginalAfter normTC ctx cache P).topKeys = P.topKeys ∧
    ∀ k, k ∉ (["toolConfig", "generationConfig", "extra_body", "contents",
        "tools"] : List String) →
      (geminiOriginalAfter normTC ctx cache P).jget k = P.jget k := by
  cases P with
  | jobj fields =>
    have hF1 : ∀ kv : String × JVal,
        ((if kv.1 = "toolConfig" then (kv.1, originalToolConfigAfter kv.2)
          else if kv.1 = "generationConfig" then
            (kv.1, originalGenerationConfigAfter normTC kv.2)
          else if kv.1 = "extra_body" then (kv.1, originalExtraBodyAfter kv.2)
          else if kv.1 = "contents" then
            (kv.1, originalContentsAfter cache ctx.sessionId kv.2)
          else if kv.1 = "tools" then (kv.1, originalToolsAfter ctx.model kv.2)
          else kv) : String × JVal).1 = kv.1 := by
      intro kv
      split_ifs <;> rfl
    constructor
    · simp only [geminiOriginalAfter, topKeys]
      exact map_fst_map _ hF1 fields
    · intro k hk
      simp only [List.mem_cons] at hk
      push_neg at hk
      obtain ⟨n1, n2, n3, n4, n5, -⟩ := hk
      simp only [geminiOriginalAfter, jget]
      apply getFields_map_preserve _ _ _ hF1
      intro kv hkv
      rw [if_neg (hkv ▸ n1), if_neg (hkv ▸ n2), if_neg (hkv ▸ n3),
        if_neg (hkv ▸ n4), if_neg (hkv ▸ n5)]
  | jnull => exact ⟨rfl, fun k _ => rfl⟩
  | jbool b => exact ⟨rfl, fun k _ => rfl⟩
  | jnum n => exact ⟨rfl, fun k _ => rfl⟩
  | jstr s => exact ⟨rfl, fun k _ => rfl⟩
  | jarr es => exact ⟨rfl, fun k _ => rfl⟩

/-- The original payload of the C6 counterexample: a `toolConfig` holding an
empty `functionCallingConfig` object. -/
def c6Original : JVal :=
  jobj [("toolConfig", jobj [("functionCallingConfig", jobj [])])]

/-- C6 (counterexample): gemini.ts line 35 writes
`toolConfig.functionCallingConfig.mode = "VALIDATED"` through the shallow
clone into the object shared with the caller, so after the transform returns
the caller's original `toolConfig` has gained a `mode` field — the original
payload is not unchanged. -/
theorem original_payload_mutated_counterexample :
    c6Original.jget "toolConfig" =
      some (jobj [("functionCallingConfig", jobj [])]) ∧
    (geminiOriginalAfter noThinkingRequested testContext [] c6Original).jget "toolConfig" =
      some (jobj [("functionCallingConfig", jobj [("mode", jstr "VALIDATED")])]) ∧
    geminiOriginalAfter noThinkingRequested testContext [] c6Original ≠ c6Original := by
  refine ⟨rfl, rfl, fun hEq => ?_⟩
  have h1 := congrArg (fun v => v.jget "toolConfig") hEq
  have h2 : (some (jobj [("functionCallingConfig", jobj [("mode", jstr "VALIDATED")])]) :
      Option JVal) = some (jobj [("functionCallingConfig", jobj [])]) := h1
  simp at h2

/-- C6 witness: the amended theorem applied at `c6Original` and the untouched
key `systemInstruction`. -/
theorem original_payload_after_transform_witness :
    (geminiOriginalAfter noThinkingRequested testContext [] c6Original).topKeys =
      c6Original.topKeys ∧
    (geminiOriginalAfter noThinkingRequested testContext [] c6Original).jget
      "systemInstruction" = c6Original.jget "systemInstruction" := by
  have h := original_payload_after_transform noThinkingRequested testContext [] c6Original
  exact ⟨h.1, h.2 "systemInstruction" (by decide)⟩

/-- C2: the Claude-proxy transformer's thinking-block policy (spec-modelled:
claude.ts is not under src/; the model follows spec §4.3 and
signature.test.ts 107-208). Function-call parts pass through unchanged
regardless of signature; a thinking part whose signature is present, not the
sentinel and longer than 50 characters is kept unchanged; otherwise a cache
hit on `(sessionId, text)` substitutes the cached signature; otherwise the
entire part is dropped, and a model-authored turn's output parts array is the
filterMap of the per-part rule. -/
theorem claude_thinking_block_policy (cache : SigCache) (sessionId : String) (part : JVal) :
    ((part.jget "functionCall").isSome = true →
      claudePartStep cache sessionId part = some part) ∧
    ((part.jget "functionCall") = none → isThoughtTrue part = true →
      (isAuthenticSignature (part.jget "thoughtSignature") = true →
        claudePartStep cache sessionId part = some part) ∧
      (isAuthenticSignature (part.jget "thoughtSignature") = false →
        ∀ t, part.jget "text" = some (jstr t) →
          (∀ v, getCachedSignature cache sessionId t = some v →
            claudePartStep cache sessionId part =
              some (part.jset "thoughtSignature" (jstr v))) ∧
          (getCachedSignature cache sessionId t = none →
            claudePartStep cache sessionId part = none))) ∧
    (∀ (content : JVal) (parts : List JVal),
      content.jget "role" = some (jstr "model") →
      content.jget "parts" = some (jarr parts) →
      (claudeContentStep cache sessionId content).jget "parts" =
        some (jarr (parts.filterMap (claudePartStep cache sessionId)))) := by
  refine ⟨?_, ?_, ?_⟩
  · intro hfc
    unfold claudePartStep
    rw [if_pos hfc]
  · intro hfc hth
    have hfc' : ¬ ((part.jget "functionCall").isSome = true) := by
      rw [hfc]
      simp
    constructor
    · intro hauth
      unfold claudePartStep
      rw [if_neg hfc', if_pos hth, if_pos hauth]
    · intro hauth t ht
      have hauth' : ¬ (isAuthenticSignature (part.jget "thoughtSignature") = true) := by
        rw [hauth]
        simp
      constructor
      · intro v hv
        unfold claudePartStep
        rw [if_neg hfc', if_pos hth, if_neg hauth', ht]
        dsimp only
        rw [hv]
        rfl
      · intro hv
        unfold claudePartStep
        rw [if_neg hfc', if_pos hth, if_neg hauth', ht]
        dsimp only
        rw [hv]
        rfl
  · intro content parts hrole hparts
    have hm : isModelRole content = true := by
      unfold isModelRole
      rw [hrole]
      rfl
    unfold claudeContentStep
    rw [if_pos hm, hparts]
    dsimp only
    exact jget_jset_self_of_some _ _ _ _ _ hparts

/-- C2 witness: a thinking part with an authentic 60-character signature is
kept unchanged. -/
def c2Part : JVal :=
  jobj [("text", jstr "witness thinking"), ("thought", jbool true),
        ("thoughtSignature",
         jstr "SIG012345678901234567890123456789012345678901234567890123456")]

/-- C2 witness theorem: `claude_thinking_block_policy` applied at `c2Part`. -/
theorem claude_thinking_block_policy_witness :
    claudePartStep [] "s1" c2Part = some c2Part := by
  exact ((claude_thinking_block_policy [] "s1" c2Part).2.1 rfl rfl).1 (by decide)

/-- C3: round trip across model families (spec-modelled: cache.ts and the
bypass/claude transform halves are not under src/). If the Gemini-family
bypass step observes a long non-sentinel signature with accompanying text, it
stores it under `(sessionId, text)`; a subsequent Claude-proxy lookup of the
same key reads back exactly that value, and the Claude per-part rule restores
it into the sentinel-ized part. -/
theorem signature_cache_round_trip (cache : SigCache) (sessionId : String)
    (part : JVal) (s t : String)
    (hsig : part.jget "thoughtSignature" = some (jstr s))
    (hlong : 50 < s.length) (hsent : s ≠ THOUGHT_SIGNATURE_BYPASS)
    (htext : part.jget "text" = some (jstr t))
    (hth : isThoughtTrue part = true)
    (hfc : part.jget "functionCall" = none) :
    getCachedSignature (geminiBypassPartSpec cache sessionId part).2 sessionId t =
      some s ∧
    claudePartStep (geminiBypassPartSpec cache sessionId part).2 sessionId
      (geminiBypassPartSpec cache sessionId part).1 =
      some (((geminiBypassPartSpec cache sessionId part).1).jset
        "thoughtSignature" (jstr s)) := by
  have helig : isBypassEligiblePart part = true := by
    unfold isBypassEligiblePart
    rw [hth]
    rfl
  have hspec : geminiBypassPartSpec cache sessionId part =
      (part.jset "thoughtSignature" (jstr THOUGHT_SIGNATURE_BYPASS),
       setCachedSignature cache sessionId t s) := by
    simp only [geminiBypassPartSpec, helig, if_true, hsig, htext]
    rw [if_pos (by simp [hsent, hlong])]
  rw [hspec]
  constructor
  · simp [getCachedSignature, setCachedSignature]
  · have hfc2 : ((part.jset "thoughtSignature" (jstr THOUGHT_SIGNATURE_BYPASS)).jget
        "functionCall") = none := by
      rw [jget_jset_ne _ _ _ _ (by decide)]
      exact hfc
    have hth2 : isThoughtTrue (part.jset "thoughtSignature"
        (jstr THOUGHT_SIGNATURE_BYPASS)) = true := by
      unfold isThoughtTrue
      rw [jget_jset_ne _ _ _ _ (by decide)]
      unfold isThoughtTrue at hth
      exact hth
    have hsig2 : ((part.jset "thoughtSignature" (jstr THOUGHT_SIGNATURE_BYPASS)).jget
        "thoughtSignature") = some (jstr THOUGHT_SIGNATURE_BYPASS) :=
      jget_jset_self_of_some _ _ _ _ _ hsig
    have htext2 : ((part.jset "thoughtSignature" (jstr THOUGHT_SIGNATURE_BYPASS)).jget
        "text") = some (jstr t) := by
      rw [jget_jset_ne _ _ _ _ (by decide)]
      exact htext
    unfold claudePartStep
    rw [if_neg (by rw [hfc2]; simp), if_pos hth2, if_neg (by rw [hsig2]; decide), htext2]
    dsimp only
    rw [show getCachedSignature (setCachedSignature cache sessionId t s) sessionId t =
      some s by simp [getCachedSignature, setCachedSignature]]
    rfl

/-- C3 witness: the part used by the round-trip scenario. -/
def c3Part : JVal :=
  jobj [("text", jstr "round-trip-text"), ("thought", jbool true),
        ("thoughtSignature",
         jstr "SIG012345678901234567890123456789012345678901234567890123456")]

/-- C3 witness theorem: `signature_cache_round_trip` applied at `c3Part`. -/
theorem signature_cache_round_trip_witness :
    getCachedSignature (geminiBypassPartSpec [] "s1" c3Part).2 "s1" "round-trip-text" =
      some "SIG012345678901234567890123456789012345678901234567890123456" := by
  exact (signature_cache_round_trip [] "s1" c3Part
    "SIG012345678901234567890123456789012345678901234567890123456" "round-trip-text"
    rfl (by decide) (by decide) rfl rfl rfl).1

/-- C7: for a request whose resolved target model is `gemini-2.5-flash` or
`gemini-2.5-flash-lite` and whose tools array requests Google Search in any
form (a truthy native `google_search`/`googleSearch` entry, or a function
declaration named `google_search`), the Gemini-family transform replaces the
entire tools array of the output request with exactly `[{googleSearch: {}}]`,
discarding all function declarations (gemini.ts lines 171-175). -/
theorem flash_exclusive_google_search (normTC : Option JVal → Option JVal)
    (ctx : TransformContext) (cache : SigCache) (body : JVal) (tools : List JVal)
    (hm : searchIsFlash ctx.model = true)
    (ht : body.jget "tools" = some (jarr tools))
    (hreq : tools.any toolRequestsSearch = true) :
    (transformGeminiBody normTC ctx cache body).jget "tools" =
      some (jarr [jobj [("googleSearch", jobj [])]]) ∧
    (transformGeminiRequest normTC ctx cache body).jget "request" =
      some (transformGeminiBody normTC ctx cache body) := by
  refine ⟨?_, rfl⟩
  have hpre : (sessionStep ctx.sessionId (contentsStep cache ctx.sessionId
      (modelStep (cachedContentStep (systemInstructionStep (thinkingStep normTC
      (toolConfigStep (safetyStep body)))))))).jget "tools" = some (jarr tools) := by
    rw [jget_sessionStep_ne _ _ _ (by decide), jget_contentsStep_ne _ _ _ _ (by decide),
      jget_modelStep_ne _ _ (by decide),
      jget_cachedContentStep_ne _ _ (by decide) (by decide) (by decide),
      jget_systemInstructionStep_ne _ _ (by decide) (by decide),
      jget_thinkingStep_ne _ _ _ (by decide), jget_toolConfigStep_ne _ _ (by decide),
      jget_safetyStep_ne _ _ (by decide)]
    exact ht
  unfold transformGeminiBody normalizeGoogleSearchTool
  rw [hpre]
  dsimp only
  simp only [hreq, hm, if_true]
  exact jget_jset_self_of_some _ _ _ _ _ hpre

/-- The tools array of the C7 scenario: one entry mixing an ordinary function
declaration with a `google_search` declaration (spec §8 scenario). -/
def c7Body : JVal :=
  jobj [("tools", jarr [
    jobj [("functionDeclarations", jarr [jobj [("name", jstr "bash")],
                                         jobj [("name", jstr "google_search")]])]])]

/-- The transform context targeting `gemini-2.5-flash`. -/
def flashContext : TransformContext :=
  { model := "gemini-2.5-flash", projectId := "test-project", streaming := true,
    requestId := "test-request-id", sessionId := "test-session-id" }

/-- C7 witness: the theorem applied at `c7Body` under `flashContext`. -/
theorem flash_exclusive_google_search_witness :
    (transformGeminiBody noThinkingRequested flashContext [] c7Body).jget "tools" =
      some (jarr [jobj [("googleSearch", jobj [])]]) := by
  exact (flash_exclusive_google_search noThinkingRequested flashContext [] c7Body _
    rfl rfl rfl).1

theorem headerGet_headerSet_self (h : HeaderMap) (k v : String) :
    headerGet (headerSet h k v) k = some v := by
  induction h with
  | nil => simp [headerSet, headerGet]
  | cons kv rest ih =>
    obtain ⟨k₀, v₀⟩ := kv
    by_cases hk : k₀ = k
    · simp [headerSet, hk, headerGet]
    · simp [headerSet, hk, headerGet, ih]

theorem headerGet_headerSet_ne (h : HeaderMap) (k k' v : String) (hne : k' ≠ k) :
    headerGet (headerSet h k v) k' = headerGet h k' := by
  induction h with
  | nil =>
    have hkk : ¬ k = k' := fun hc => hne hc.symm
    simp [headerSet, headerGet, hkk]
  | cons kv rest ih =>
    obtain ⟨k₀, v₀⟩ := kv
    by_cases hk : k₀ = k
    · subst hk
      have hko : ¬ k₀ = k' := fun hc => hne hc.symm
      simp [headerSet, headerGet, hko]
    · simp only [headerSet, if_neg hk, headerGet]
      by_cases hk' : k₀ = k' <;> simp [hk', ih]

theorem headerGet_optSet_ne (o : Option Int) (key k : String) (hs : HeaderMap)
    (hne : k ≠ key) :
    headerGet (match o with
      | some t => headerSet hs key (toString t)
      | none => hs) k = headerGet hs k := by
  cases o with
  | some t => exact headerGet_headerSet_ne _ _ _ _ hne
  | none => rfl

/-- C8 (amended): usage token counts are projected onto the four dedicated
`x-gemini-*` response headers only when `cachedContentTokenCount` is present
(request.ts line 233 guards the whole block on it); in that case each of the
other three counts that is present is projected as well. When
`cachedContentTokenCount` is absent — even if other counts are present — no
usage header is set at all, and absent usage leaves the headers untouched.
The projection writes response headers only; the normalizer's body paths
(request.ts lines 252-268) never reference the usage record. -/
theorem usage_header_projection (u : UsageMetadata) (h : HeaderMap) :
    (∀ c, u.cachedContentTokenCount = some c →
      headerGet (applyUsageHeaders (some u) h) "x-gemini-cached-content-token-count" =
        some (toString c) ∧
      (∀ t, u.totalTokenCount = some t →
        headerGet (applyUsageHeaders (some u) h) "x-gemini-total-token-count" =
          some (toString t)) ∧
      (∀ t, u.promptTokenCount = some t →
        headerGet (applyUsageHeaders (some u) h) "x-gemini-prompt-token-count" =
          some (toString t)) ∧
      (∀ t, u.candidatesTokenCount = some t →
        headerGet (applyUsageHeaders (some u) h) "x-gemini-candidates-token-count" =
          some (toString t))) ∧
    (u.cachedContentTokenCount = none → applyUsageHeaders (some u) h = h) ∧
    applyUsageHeaders none h = h := by
  refine ⟨?_, ?_, rfl⟩
  · intro c hc
    unfold applyUsageHeaders
    dsimp only
    rw [hc]
    dsimp only
    refine ⟨?_, ?_, ?_, ?_⟩
    · rw [headerGet_optSet_ne _ _ _ _ (by decide), headerGet_optSet_ne _ _ _ _ (by decide),
        headerGet_optSet_ne _ _ _ _ (by decide)]
      exact headerGet_headerSet_self _ _ _
    · intro t ht
      rw [ht]
      dsimp only
      rw [headerGet_optSet_ne _ _ _ _ (by decide), headerGet_optSet_ne _ _ _ _ (by decide)]
      exact headerGet_headerSet_self _ _ _
    · intro t ht
      rw [ht]
      dsimp only
      rw [headerGet_optSet_ne _ _ _ _ (by decide)]
      exact headerGet_headerSet_self _ _ _
    · intro t ht
      rw [ht]
      dsimp only
      exact headerGet_headerSet_self _ _ _
  · intro hc
    unfold applyUsageHeaders
    dsimp only
    rw [hc]

/-- The usage record of the C8 counterexample: a present `promptTokenCount`
but no `cachedContentTokenCount`. -/
def c8Usage : UsageMetadata :=
  { promptTokenCount := some 10, candidatesTokenCount := none,
    cachedContentTokenCount := none, totalTokenCount := none }

/-- C8 (counterexample): request.ts guards the whole projection block on
`usage?.cachedContentTokenCount !== undefined`, so usage metadata with a
present `promptTokenCount` but absent `cachedContentTokenCount` produces *no*
`x-gemini-prompt-token-count` header, contradicting the claim that every
present count is projected. -/
theorem usage_header_counterexample :
    c8Usage.promptTokenCount = some 10 ∧
    applyUsageHeaders (some c8Usage) [] = [] ∧
    headerGet (applyUsageHeaders (some c8Usage) []) "x-gemini-prompt-token-count" =
      none := by
  exact ⟨rfl, rfl, rfl⟩

/-- The usage record of the C8 witness (the spec §8 streaming scenario:
`cachedContentTokenCount = 40`). -/
def c8WitnessUsage : UsageMetadata :=
  { promptTokenCount := some 2, candidatesTokenCount := some 3,
    cachedContentTokenCount := some 40, totalTokenCount := some 50 }

/-- C8 witness: the amended theorem applied at `c8WitnessUsage` — in
particular `cachedContentTokenCount = 40` yields the header value `"40"`. -/
theorem usage_header_projection_witness :
    headerGet (applyUsageHeaders (some c8WitnessUsage) [])
      "x-gemini-cached-content-token-count" = some "40" ∧
    headerGet (applyUsageHeaders (some c8WitnessUsage) [])
      "x-gemini-prompt-token-count" = some "2" := by
  have h := (usage_header_projection c8WitnessUsage []).1 40 rfl
  exact ⟨h.1, (h.2.2.1 2 rfl)⟩

theorem log2UpFuel_spec : ∀ (fuel e : Nat) (q : ℚ), 2 ^ e ≤ q → q < 2 ^ (e + 1) →
    e < fuel → log2UpFuel fuel q = e := by
  intro fuel
  induction fuel with
  | zero => intro e q _ _ h; exact absurd h (Nat.not_lt_zero e)
  | succ fuel ih =>
    intro e q h1 h2 _
    cases e with
    | zero =>
      have : q < 2 := by simpa using h2
      simp [log2UpFuel, this]
    | succ e' =>
      have h2' : (2 : ℚ) ≤ 2 ^ (e' + 1) := by
        calc (2 : ℚ) = 2 ^ 1 := by norm_num
        _ ≤ 2 ^ (e' + 1) := by
          apply pow_le_pow_right₀ (by norm_num)
          omega
      have hq2 : ¬ q < 2 := not_lt.mpr (le_trans h2' h1)
      have hd1 : 2 ^ e' ≤ q / 2 := by
        rw [le_div_iff₀ (by norm_num)]
        calc (2 : ℚ) ^ e' * 2 = 2 ^ (e' + 1) := by ring
        _ ≤ q := h1
      have hd2 : q / 2 < 2 ^ (e' + 1) := by
        rw [div_lt_iff₀ (by norm_num)]
        calc q < 2 ^ (e' + 1 + 1) := h2
        _ = 2 ^ (e' + 1) * 2 := by ring
      have hfe : e' < fuel := by omega
      simp [log2UpFuel, hq2, ih e' (q / 2) hd1 hd2 hfe]
      omega

theorem log2DownFuel_spec : ∀ (fuel k : Nat) (q : ℚ),
    (2 : ℚ) ^ (-(k : ℤ)) ≤ q → q < 2 ^ (-(k : ℤ) + 1) →
    k ≤ fuel → log2DownFuel fuel q = k := by
  intro fuel
  induction fuel with
  | zero =>
    intro k q h1 h2 hk
    interval_cases k
    have : (1 : ℚ) ≤ q := by simpa using h1
    simp [log2DownFuel]
  | succ fuel ih =>
    intro k q h1 h2 _
    cases k with
    | zero =>
      have : (1 : ℚ) ≤ q := by simpa using h1
      simp [log2DownFuel, this]
    | succ k' =>
      have hlt1 : q < 1 := by
        calc q < 2 ^ (-((k' + 1 : ℕ) : ℤ) + 1) := h2
        _ ≤ 1 := by
          apply zpow_le_one_of_nonpos₀ (by norm_num)
          push_cast
          omega
      have hq1 : ¬ (1 : ℚ) ≤ q := not_le.mpr hlt1
      have hd1 : (2 : ℚ) ^ (-(k' : ℤ)) ≤ q * 2 := by
        have := mul_le_mul_of_nonneg_right h1 (by norm_num : (0 : ℚ) ≤ 2)
        calc (2 : ℚ) ^ (-(k' : ℤ)) = 2 ^ (-((k' + 1 : ℕ) : ℤ)) * 2 := by
              rw [← zpow_add_one₀ (by norm_num : (2 : ℚ) ≠ 0)]
              congr 1
              push_cast
              ring
        _ ≤ q * 2 := this
      have hd2 : q * 2 < 2 ^ (-(k' : ℤ) + 1) := by
        have := mul_lt_mul_of_pos_right h2 (by norm_num : (0 : ℚ) < 2)
        calc q * 2 < 2 ^ (-((k' + 1 : ℕ) : ℤ) + 1) * 2 := this
        _ = 2 ^ (-(k' : ℤ) + 1) := by
              rw [← zpow_add_one₀ (by norm_num : (2 : ℚ) ≠ 0)]
              congr 1
              push_cast
              ring
      have hfk : k' ≤ fuel := by omega
      simp [log2DownFuel, hq1, ih k' (q * 2) hd1 hd2 hfk]
      omega

theorem log2Floor_spec (q : ℚ) (e : ℤ) (h1 : 2 ^ e ≤ q) (h2 : q < 2 ^ (e + 1))
    (hlo : -1200 ≤ e) (hhi : e < 1200) : log2Floor q = e := by
  unfold log2Floor
  by_cases hq : (1 : ℚ) ≤ q
  · have he0 : 0 ≤ e := by
      by_contra hneg
      push_neg at hneg
      have he1 : e + 1 ≤ 0 := by omega
      have : q < 1 := lt_of_lt_of_le h2 (zpow_le_one_of_nonpos₀ (by norm_num) he1)
      linarith
    rw [if_pos hq]
    have h1' : (2 : ℚ) ^ e.toNat ≤ q := by
      rwa [show ((2 : ℚ) ^ e.toNat) = 2 ^ e by rw [← zpow_natCast]; congr 1; omega]
    have h2' : q < 2 ^ (e.toNat + 1) := by
      rwa [show ((2 : ℚ) ^ (e.toNat + 1)) = 2 ^ (e + 1) by
        rw [← zpow_natCast]; congr 1; push_cast; omega]
    rw [log2UpFuel_spec 1200 e.toNat q h1' h2' (by omega)]
    omega
  · have hlt : q < 1 := not_le.mp hq
    have he0 : e < 0 := by
      by_contra hpos
      push_neg at hpos
      have : (1 : ℚ) ≤ 2 ^ e := one_le_zpow₀ (by norm_num) hpos
      linarith
    rw [if_neg hq]
    have h1' : (2 : ℚ) ^ (-(((-e).toNat : ℕ) : ℤ)) ≤ q := by
      rwa [show -(((-e).toNat : ℕ) : ℤ) = e by omega]
    have h2' : q < 2 ^ (-(((-e).toNat : ℕ) : ℤ) + 1) := by
      rwa [show -(((-e).toNat : ℕ) : ℤ) + 1 = e + 1 by omega]
    rw [log2DownFuel_spec 1200 (-e).toNat q h1' h2' (by omega)]
    omega

/-- When the binary exponent is `e` and the 53-bit-scaled value has fractional
part below one half, the double rounding truncates to the scaled floor. -/
theorem roundDouble_round_down (q : ℚ) (e n : ℤ)
    (h0 : 0 < q) (he1 : 2 ^ e ≤ q) (he2 : q < 2 ^ (e + 1))
    (hlo : -1200 ≤ e) (hhi : e < 1200)
    (hn : ⌊q * (2 : ℚ) ^ ((52 : ℤ) - e)⌋ = n)
    (hfr : q * (2 : ℚ) ^ ((52 : ℤ) - e) - (n : ℚ) < 1 / 2) :
    roundDouble q = (n : ℚ) * 2 ^ (e - 52) := by
  unfold roundDouble
  rw [if_neg (not_le.mpr h0), log2Floor_spec q e he1 he2 hlo hhi]
  dsimp only
  rw [hn, if_pos hfr]

/-- A positive rational whose 53-bit scaling is an integer is its own double
rounding (exactly representable). -/
theorem roundDouble_eq_self (q : ℚ) (e : ℤ)
    (h0 : 0 < q) (he1 : 2 ^ e ≤ q) (he2 : q < 2 ^ (e + 1))
    (hlo : -1200 ≤ e) (hhi : e < 1200)
    (n : ℤ) (hn : q * (2 : ℚ) ^ ((52 : ℤ) - e) = (n : ℚ)) :
    roundDouble q = q := by
  have hfl : ⌊q * (2 : ℚ) ^ ((52 : ℤ) - e)⌋ = n := by
    rw [hn]
    exact Int.floor_intCast n
  have hfr : q * (2 : ℚ) ^ ((52 : ℤ) - e) - (n : ℚ) < 1 / 2 := by
    rw [hn]
    norm_num
  rw [roundDouble_round_down q e n h0 he1 he2 hlo hhi hfl hfr, ← hn, mul_assoc,
    ← zpow_add₀ (by norm_num : (2 : ℚ) ≠ 0)]
  norm_num

/-- C9 (amended): when the parsed delay and its thousandfold are exactly
representable as (normal-range) IEEE binary64 values, the two retry headers
are exactly the delay in seconds rounded up and in milliseconds rounded up —
in particular `"12.5s"` yields `Retry-After: 13` and `retry-after-ms: 12500`.
In general the headers round up the *double-rounded* values
`roundDouble (parseFloat d)` and `roundDouble (parseFloat d * 1000)`, which
can differ from rounding up the exact decimal (see the counterexample). -/
theorem retry_headers_exact (s body : String) (q : ℚ) (h : HeaderMap)
    (h1 : matchRetryDelay s = some body)
    (h2 : jsParseFloat body = some q)
    (h3 : 0 < q)
    (h4 : roundDouble q = q)
    (h5 : roundDouble (q * 1000) = q * 1000)
    (h6 : 1 / 2 ^ 1022 ≤ q)
    (h7 : q * 1000 < 2 ^ 1024) :
    retryHeaderValues s = some (toString (⌈q⌉ : ℤ), toString (⌈q * 1000⌉ : ℤ)) ∧
    applyRetryHeaders s h =
      headerSet (headerSet h "Retry-After" (toString (⌈q⌉ : ℤ))) "retry-after-ms"
        (toString (⌈q * 1000⌉ : ℤ)) := by
  have hv : retryHeaderValues s =
      some (toString (⌈q⌉ : ℤ), toString (⌈q * 1000⌉ : ℤ)) := by
    unfold retryHeaderValues
    rw [h1]
    dsimp only
    rw [h2]
    dsimp only
    rw [h4, if_pos h3, h5]
  refine ⟨hv, ?_⟩
  unfold applyRetryHeaders
  rw [hv]

/-- The exact rational value of the delay string `"12.5"` as parsed by
`jsParseFloat`. -/
theorem jsParseFloat_twelve_point_five : jsParseFloat "12.5" = some (25 / 2) := by
  rw [show jsParseFloat "12.5" =
    some ((digitsVal ['1', '2'] : ℚ) + (digitsVal ['5'] : ℚ) / (10 : ℚ) ^ 1) from rfl]
  rw [show digitsVal ['1', '2'] = 12 from rfl, show digitsVal ['5'] = 5 from rfl]
  congr 1
  norm_num

/-- C9 witness: the amended theorem applied to the spec §8 scenario
`retryDelay = "12.5s"` (12.5 and 12500 are exactly representable doubles). -/
theorem retry_headers_exact_witness :
    retryHeaderValues "12.5s" = some ("13", "12500") ∧
    applyRetryHeaders "12.5s" [] =
      [("Retry-After", "13"), ("retry-after-ms", "12500")] := by
  have hrd1 : roundDouble (25 / 2) = 25 / 2 := by
    apply roundDouble_eq_self (25 / 2) 3 (by norm_num) (by norm_num) (by norm_num)
      (by norm_num) (by norm_num) 7036874417766400
    norm_num
  have hrd2 : roundDouble (25 / 2 * 1000) = 25 / 2 * 1000 := by
    apply roundDouble_eq_self _ 13 (by norm_num) (by norm_num) (by norm_num)
      (by norm_num) (by norm_num) 6871947673600000
    norm_num
  have h := retry_headers_exact "12.5s" "12.5" (25 / 2) [] rfl
    jsParseFloat_twelve_point_five (by norm_num) hrd1 hrd2 (by norm_num) (by norm_num)
  have hc1 : (⌈(25 / 2 : ℚ)⌉ : ℤ) = 13 := by
    rw [Int.ceil_eq_iff]
    constructor <;> norm_num
  have hc2 : (⌈(25 / 2 : ℚ) * 1000⌉ : ℤ) = 12500 := by
    rw [show (25 / 2 : ℚ) * 1000 = ((12500 : ℤ) : ℚ) by norm_num, Int.ceil_intCast]
  rw [hc1, hc2] at h
  exact h

/-- The exact rational value of the delay string `"3.0000000000000001"` as
parsed by `jsParseFloat`. -/
theorem jsParseFloat_three_plus_eps :
    jsParseFloat "3.0000000000000001" = some (30000000000000001 / 10 ^ 16) := by
  rw [show jsParseFloat "3.0000000000000001" =
    some ((digitsVal ['3'] : ℚ) +
      (digitsVal ['0', '0', '0', '0', '0', '0', '0', '0', '0', '0', '0', '0', '0',
        '0', '0', '1'] : ℚ) / (10 : ℚ) ^ 16) from rfl]
  rw [show digitsVal ['3'] = 3 from rfl,
    show digitsVal ['0', '0', '0', '0', '0', '0', '0', '0', '0', '0', '0', '0', '0',
      '0', '0', '1'] = 1 from rfl]
  congr 1
  norm_num

/-- C9 (counterexample): the code computes the headers through IEEE binary64
arithmetic (`parseFloat` and `* 1000`), not exact decimal arithmetic. The
delay string `"3.0000000000000001"` denotes 3 + 10⁻¹⁶, but the excess 10⁻¹⁶
is below half an ulp at 3, so `parseFloat` yields exactly the double 3.0 and
the code emits `Retry-After: 3` and `retry-after-ms: 3000` — while the
claim's exact rounding-up of the stated delay would give 4 and 3001. -/
theorem retry_headers_float_counterexample :
    jsParseFloat "3.0000000000000001" = some (30000000000000001 / 10 ^ 16) ∧
    retryHeaderValues "3.0000000000000001s" = some ("3", "3000") ∧
    (⌈(30000000000000001 / 10 ^ 16 : ℚ)⌉ : ℤ) = 4 ∧
    (⌈(30000000000000001 / 10 ^ 16 : ℚ) * 1000⌉ : ℤ) = 3001 := by
  refine ⟨jsParseFloat_three_plus_eps, ?_, ?_, ?_⟩
  · have hrd1 : roundDouble (30000000000000001 / 10 ^ 16) = 3 := by
      have h := roundDouble_round_down (30000000000000001 / 10 ^ 16) 1 6755399441055744
        (by norm_num) (by norm_num) (by norm_num) (by norm_num) (by norm_num)
        (by rw [Int.floor_eq_iff]; constructor <;> norm_num)
        (by norm_num)
      rw [h]
      norm_num
    have hrd2 : roundDouble ((3 : ℚ) * 1000) = 3000 := by
      rw [show ((3 : ℚ) * 1000) = 3000 by norm_num]
      apply roundDouble_eq_self _ 11 (by norm_num) (by norm_num) (by norm_num)
        (by norm_num) (by norm_num) 6597069766656000
      norm_num
    have hc1 : (⌈(3 : ℚ)⌉ : ℤ) = 3 := by
      rw [show (3 : ℚ) = ((3 : ℤ) : ℚ) by norm_num, Int.ceil_intCast]
    have hc2 : (⌈(3000 : ℚ)⌉ : ℤ) = 3000 := by
      rw [show (3000 : ℚ) = ((3000 : ℤ) : ℚ) by norm_num, Int.ceil_intCast]
    unfold retryHeaderValues
    rw [show matchRetryDelay "3.0000000000000001s" = some "3.0000000000000001" from rfl]
    dsimp only
    rw [jsParseFloat_three_plus_eps]
    dsimp only
    rw [hrd1, if_pos (by norm_num : (0 : ℚ) < 3), hrd2, hc1, hc2]
    rfl
  · rw [Int.ceil_eq_iff]
    constructor <;> norm_num
  · rw [Int.ceil_eq_iff]
    constructor <;> norm_num

/-- C10: every header map the debug logger emits goes through `maskHeaders`
(debug.ts lines 55 and 78-80), which replaces the value of any header whose
name is case-insensitively `authorization` with `"[redacted]"` and keeps
every other entry unchanged; consequently the logged header maps are
independent of the bearer token — two header maps that agree on names and on
all non-authorization values mask to identical maps. -/
theorem mask_headers_redacts_and_is_token_independent (hs h1 h2 : HeaderMap)
    (hagree : List.Forall₂ (fun a b : String × String =>
      a.1 = b.1 ∧ (lowerName a.1 ≠ "authorization" → a.2 = b.2)) h1 h2) :
    (∀ k v, (k, v) ∈ maskHeaders hs →
      (lowerName k = "authorization" → v = "[redacted]") ∧
      (lowerName k ≠ "authorization" → (k, v) ∈ hs)) ∧
    maskHeaders h1 = maskHeaders h2 := by
  constructor
  · intro k v hmem
    rw [maskHeaders, List.mem_map] at hmem
    obtain ⟨⟨k₀, v₀⟩, hmem₀, heq⟩ := hmem
    by_cases hk : lowerName k₀ = "authorization"
    · rw [if_pos hk] at heq
      rw [Prod.mk.injEq] at heq
      obtain ⟨rfl, rfl⟩ := heq
      exact ⟨fun _ => rfl, fun hne => absurd hk hne⟩
    · rw [if_neg hk] at heq
      rw [Prod.mk.injEq] at heq
      obtain ⟨rfl, rfl⟩ := heq
      exact ⟨fun hc => absurd hc hk, fun _ => hmem₀⟩
  · induction hagree with
    | nil => rfl
    | cons hab _ ih =>
      next a b t1 t2 _ =>
        obtain ⟨hname, hval⟩ := hab
        rw [maskHeaders, List.map_cons, maskHeaders, List.map_cons]
        rw [maskHeaders] at ih
        rw [ih]
        congr 1
        by_cases hk : lowerName a.1 = "authorization"
        · rw [if_pos hk, if_pos (by rw [← hname]; exact hk)]
          rw [hname]
        · rw [if_neg hk, if_neg (by rw [← hname]; exact hk)]
          obtain ⟨a1, a2⟩ := a
          obtain ⟨b1, b2⟩ := b
          have hv2 : a2 = b2 := hval hk
          simp only at hname
          rw [hname, hv2]

/-- C10 witness: two concrete header maps differing only in the bearer token
mask to identical maps, and the masked map carries `"[redacted]"` for the
authorization header. -/
theorem mask_headers_witness :
    maskHeaders [("Authorization", "Bearer token-A"), ("accept", "text/event-stream")] =
      maskHeaders [("Authorization", "Bearer token-B"), ("accept", "text/event-stream")] := by
  exact (mask_headers_redacts_and_is_token_independent []
    [("Authorization", "Bearer token-A"), ("accept", "text/event-stream")]
    [("Authorization", "Bearer token-B"), ("accept", "text/event-stream")]
    (List.Forall₂.cons ⟨rfl, fun hne => absurd (by decide) hne⟩
      (List.Forall₂.cons ⟨rfl, fun _ => rfl⟩ List.Forall₂.nil))).2
